import Mathlib

/-!
# Verification of the ScreenRecorder upload / analytics code paths

Shallow embedding of the repository's route handlers and library helpers:

* `src/lib/ffmpeg` (`trimVideo`, `copyVideo`, `getVideoDuration`) — the
  external tool invocations are modelled by passing the outcome of the
  spawned process (spawn error / exit code / captured stderr / parsed
  stdout) as an explicit argument; the result-record construction is
  translated literally from the source.
* `src/app/api/videos/upload-raw/route.ts` (drizzle variant) — the upload
  pipeline `POST`.
* `src/app/api/videos/[videoId]/views/route.ts` — both the drizzle variant
  (two sequential statements) and the prisma variant (one `$transaction`).
* `src/app/api/videos/[videoId]/watch-sessions/route.ts` (drizzle variant).
* `src/app/api/uploads/[...path]/route.ts` — the static file GET with its
  path-containment check.

JS numbers carrying seconds/durations are modelled as `ℚ`; byte sizes and
counters as `ℕ`; millisecond timestamps as `ℤ`.  Database tables are lists
of rows; each handler is a pure function from the database (and explicit
request / clock / fresh-id / process-outcome inputs) to a response and the
new database.
-/

/-- Last `n` characters of a string — JS `s.slice(-n)` for `n > 0`
(returns the whole string when it is shorter than `n`). -/
def strTail (n : Nat) (s : String) : String :=
  String.mk (s.data.drop (s.data.length - n))

/-- Does the first list lead (open) the second? -/
def charsHavePre : List Char → List Char → Bool
  | [], _ => true
  | _ :: _, [] => false
  | a :: as, b :: bs => a == b && charsHavePre as bs

/-- Is `needle` a contiguous substring of `hay`?  Used to state whether a
diagnostic message contains a stderr tail. -/
def charsContain (needle hay : List Char) : Bool :=
  match hay with
  | [] => charsHavePre needle []
  | _ :: t => charsHavePre needle hay || charsContain needle t

def containsSub (needle hay : String) : Bool :=
  charsContain needle.data hay.data

/-- JS `s.startsWith(pre)`. -/
def strLeads (pre s : String) : Bool :=
  charsHavePre pre.data s.data

/-- JS `s.endsWith(suf)`. -/
def strTrails (suf s : String) : Bool :=
  charsHavePre suf.data.reverse s.data.reverse

/-! ## Data model (src/lib/schema.ts) -/

structure VideoRow where
  id : String
  filename : String
  contentType : String
  durationSeconds : ℚ
  sizeBytes : ℕ
  publicUrl : String
  viewCount : ℕ
  createdAt : ℤ
  updatedAt : ℤ
deriving DecidableEq, Repr

structure ViewRow where
  id : String
  videoId : String
  sessionId : String
  userAgent : Option String
  createdAt : ℤ
deriving DecidableEq, Repr

structure WatchSessionRow where
  id : String
  videoId : String
  sessionId : String
  maxWatchedSeconds : ℚ
  durationSeconds : ℚ
  watchedPercentage : ℚ
  createdAt : ℤ
deriving DecidableEq, Repr

structure Db where
  videos : List VideoRow
  views : List ViewRow
  watchSessions : List WatchSessionRow
deriving DecidableEq, Repr

/-- `db.query.videos.findFirst({ where: eq(videos.id, videoId) })`. -/
def findVideo (db : Db) (videoId : String) : Option VideoRow :=
  db.videos.find? (fun v => v.id == videoId)

/-- The view count the database reports for a video id (0 when the video
is absent). -/
def viewCountOf (db : Db) (videoId : String) : ℕ :=
  ((findVideo db videoId).map (fun v => v.viewCount)).getD 0

/-- The `maxWatchedSeconds` stored for a `(videoId, sessionId)` pair —
the first matching row, as `findFirst` returns it. -/
def storedMax (db : Db) (videoId sessionId : String) : Option ℚ :=
  ((db.watchSessions.find? (fun w => w.videoId == videoId && w.sessionId == sessionId)).map
    (fun w => w.maxWatchedSeconds))

/-! ## Watch-session POST (drizzle variant of
`watch-sessions/route.ts`) -/

/-- Request body of the watch-progress POST.  `none` models an absent
field (`undefined` after JSON parsing). -/
structure WatchBody where
  sessionId : Option String
  watchedSeconds : Option ℚ
  videoDuration : Option ℚ
deriving DecidableEq, Repr

inductive WatchResponse
  | missingFields
  | notFound
  | ok (watchedPercentage : ℚ)
deriving DecidableEq, Repr

/-- JS truthiness of an optional string: `!sessionId` is true when the
field is absent or the empty string. -/
def strTruthy : Option String → Bool
  | none => false
  | some s => s != ""

/-- JS truthiness of an optional number: absent and `0` are falsy. -/
def numTruthy : Option ℚ → Bool
  | none => false
  | some q => q != 0

/-- `Math.min(100, (watchedSeconds / videoDuration) * 100)`. -/
def computeWatchedPercentage (watchedSeconds videoDuration : ℚ) : ℚ :=
  min 100 (watchedSeconds / videoDuration * 100)

/-- The drizzle watch-sessions `POST` handler.  `newId` is the `uuidv4()`
the handler would generate, `now` the clock at `new Date()`. -/
def watchSessionPost (db : Db) (videoId : String) (body : WatchBody)
    (newId : String) (now : ℤ) : WatchResponse × Db :=
  -- if (!sessionId || watchedSeconds === undefined || !videoDuration)
  if !(strTruthy body.sessionId) || body.watchedSeconds == none
      || !(numTruthy body.videoDuration) then
    (.missingFields, db)
  else
    match findVideo db videoId with
    | none => (.notFound, db)
    | some _ =>
      let sid := body.sessionId.getD ""
      let ws := body.watchedSeconds.getD 0
      let dur := body.videoDuration.getD 0
      let watchedPercentage := computeWatchedPercentage ws dur
      match db.watchSessions.find?
          (fun w => w.videoId == videoId && w.sessionId == sid) with
      | some existingSession =>
        if ws > existingSession.maxWatchedSeconds then
          let sessions' := db.watchSessions.map (fun w =>
            if w.id == existingSession.id then
              { w with maxWatchedSeconds := ws,
                       watchedPercentage := watchedPercentage }
            else w)
          (.ok watchedPercentage, { db with watchSessions := sessions' })
        else
          (.ok watchedPercentage, db)
      | none =>
        let row : WatchSessionRow :=
          { id := newId, videoId := videoId, sessionId := sid,
            maxWatchedSeconds := ws, durationSeconds := dur,
            watchedPercentage := watchedPercentage, createdAt := now }
        (.ok watchedPercentage, { db with watchSessions := db.watchSessions ++ [row] })

/-- A whole progress report as fed to the handler: body plus the fresh id
and clock that request would see. -/
structure WatchReport where
  body : WatchBody
  newId : String
  now : ℤ
deriving DecidableEq, Repr

/-- Fold a sequence of progress reports for one video through the
handler. -/
def processReports (db : Db) (videoId : String) : List WatchReport → Db
  | [] => db
  | r :: rs => processReports (watchSessionPost db videoId r.body r.newId r.now).2 videoId rs

/-- Order on optional stored maxima: `none` (no session yet) is below
everything; stored values compare by `≤`. -/
def optLe : Option ℚ → Option ℚ → Prop
  | none, _ => True
  | some _, none => False
  | some a, some b => a ≤ b

/-! ## View-tracking POST (`views/route.ts`)

The handler exists in two variants in the repository: the drizzle one
issues the View insert and the view-count update as two sequential
statements, the prisma one wraps them in a single `$transaction`.  To
talk about atomicity we let each database write carry an explicit
may-fail flag: a failing statement leaves the database untouched and
throws, which the surrounding `catch` maps to a 500 `server_error`.
Statements that succeeded before the throw stay committed (autocommit),
while a failing transaction rolls back as a whole. -/

/-- Deduplication window: `DEDUP_HOURS * 60 * 60 * 1000` ms. -/
def DEDUP_WINDOW_MS : ℤ := 24 * 60 * 60 * 1000

inductive ViewsResponse
  | missingSessionId
  | notFound
  | okNew
  | okDeduplicated
  | serverError
deriving DecidableEq, Repr

/-- Which of the two write statements fail (throw) when reached. -/
structure ViewWriteFaults where
  insertFails : Bool
  updateFails : Bool
deriving DecidableEq, Repr

def noFaults : ViewWriteFaults := ⟨false, false⟩

/-- `findFirst` for a recent view of this `(videoId, sessionId)` pair:
`createdAt >= now − 24h`. -/
def findRecentView (db : Db) (videoId sessionId : String) (now : ℤ) : Option ViewRow :=
  db.views.find? (fun w =>
    w.videoId == videoId && w.sessionId == sessionId
      && decide (now - DEDUP_WINDOW_MS ≤ w.createdAt))

/-- Increment the stored view count of every row with this id
(`update videos set viewCount = viewCount + 1 where id = videoId`). -/
def bumpViewCount (db : Db) (videoId : String) : Db :=
  { db with videos := db.videos.map (fun v =>
      if v.id == videoId then { v with viewCount := v.viewCount + 1 } else v) }

/-- The drizzle `POST /api/videos/[videoId]/views` handler: insert and
increment are two separate statements. -/
def viewsPostDrizzle (db : Db) (videoId : String) (sessionId : Option String)
    (userAgent : Option String) (now : ℤ) (newViewId : String)
    (f : ViewWriteFaults) : ViewsResponse × Db :=
  if !(strTruthy sessionId) then
    (.missingSessionId, db)
  else
    match findVideo db videoId with
    | none => (.notFound, db)
    | some _ =>
      let sid := sessionId.getD ""
      match findRecentView db videoId sid now with
      | some _ => (.okDeduplicated, db)
      | none =>
        if f.insertFails then
          (.serverError, db)
        else
          let db1 := { db with views := db.views ++
            [{ id := newViewId, videoId := videoId, sessionId := sid,
               userAgent := userAgent, createdAt := now }] }
          if f.updateFails then
            (.serverError, db1)
          else
            (.okNew, bumpViewCount db1 videoId)

/-- The prisma `POST /api/videos/[videoId]/views` handler: insert and
increment run inside one `$transaction`, so a failure of either rolls
both back. -/
def viewsPostPrisma (db : Db) (videoId : String) (sessionId : Option String)
    (userAgent : Option String) (now : ℤ) (newViewId : String)
    (txFails : Bool) : ViewsResponse × Db :=
  if !(strTruthy sessionId) then
    (.missingSessionId, db)
  else
    match findVideo db videoId with
    | none => (.notFound, db)
    | some _ =>
      let sid := sessionId.getD ""
      match findRecentView db videoId sid now with
      | some _ => (.okDeduplicated, db)
      | none =>
        if txFails then
          (.serverError, db)
        else
          let db1 := { db with views := db.views ++
            [{ id := newViewId, videoId := videoId, sessionId := sid,
               userAgent := userAgent, createdAt := now }] }
          (.okNew, bumpViewCount db1 videoId)

/-! ## Media tool invocations (`src/lib/ffmpeg`)

A spawned process is abstracted by its observable outcome; the functions
below rebuild the `FFmpegResult` exactly as the source does. -/

/-- Outcome of spawning ffmpeg: either the spawn itself errored (with
`err.message`), or the process ran to exit `exitCode` with the captured
stderr. -/
structure SpawnOutcome where
  spawnErrMsg : Option String
  exitCode : ℤ
  stderr : String
deriving DecidableEq, Repr

structure FFmpegResult where
  success : Bool
  error : Option String
deriving DecidableEq, Repr

/-- Argument pair handed to ffmpeg by `trimVideo`: `-ss seek -t len`. -/
structure TrimArgs where
  seek : ℚ
  extractLen : ℚ
deriving DecidableEq, Repr

/-- `trimVideo(input, output, startTime, endTime)`: seeks to `startTime`
and extracts `duration = endTime - startTime` seconds with `-c copy`.
Returns the ffmpeg args it passes. -/
def trimVideoArgs (startTime endTime : ℚ) : TrimArgs :=
  { seek := startTime, extractLen := endTime - startTime }

/-- Result record of `trimVideo` given the process outcome. -/
def trimVideo (startTime endTime : ℚ) (o : SpawnOutcome) : FFmpegResult :=
  match o.spawnErrMsg with
  | some m => { success := false, error := some ("Failed to start FFmpeg: " ++ m) }
  | none =>
    if o.exitCode = 0 then
      { success := true, error := none }
    else
      { success := false,
        error := some ("FFmpeg exited with code " ++ toString o.exitCode
          ++ ": " ++ strTail 500 o.stderr) }

/-- Result record of `copyVideo` given the process outcome.  Note the
failure message carries only the exit code, not the captured stderr. -/
def copyVideo (o : SpawnOutcome) : FFmpegResult :=
  match o.spawnErrMsg with
  | some m => { success := false, error := some ("Failed to start FFmpeg: " ++ m) }
  | none =>
    if o.exitCode = 0 then
      { success := true, error := none }
    else
      { success := false,
        error := some ("FFmpeg copy failed with code " ++ toString o.exitCode) }

/-- Outcome of the ffprobe spawn.  `stdoutNum` is
`parseFloat(output.trim())` when the trimmed stdout is non-empty and
parses to a number, else `none`. -/
structure ProbeOutcome where
  spawnFailed : Bool
  exitCode : ℤ
  stdoutNum : Option ℚ
deriving DecidableEq, Repr

/-- `getVideoDuration`: `none` on spawn error, non-zero exit, empty or
non-numeric stdout; otherwise the parsed duration. -/
def getVideoDuration (o : ProbeOutcome) : Option ℚ :=
  if o.spawnFailed then none
  else if o.exitCode = 0 then o.stdoutNum
  else none

/-! ## Upload pipeline (drizzle `upload-raw` POST) -/

/-- The `file` part of the multipart form: `file.name`, `file.type`
(declared MIME type) and `file.size` in bytes. -/
structure FilePart where
  name : String
  mimeType : String
  size : ℕ
deriving DecidableEq, Repr

/-- Parsed request: `startTime`/`endTime` are `parseFloat` of the form
fields when present and non-empty (`none` models an absent field, which
the handler defaults — `startTime` to `0`, `endTime` to `null`). -/
structure UploadReq where
  file : Option FilePart
  startTime : Option ℚ
  endTime : Option ℚ
deriving DecidableEq, Repr

/-- External-world inputs one upload request consumes: the generated
uuid, the clock, the outcomes of the ffmpeg/ffprobe spawns, whether the
final file exists afterwards, and its on-disk size. -/
structure UploadEnv where
  newId : String
  now : ℤ
  trimOutcome : SpawnOutcome
  copyOutcome : SpawnOutcome
  finalExists : Bool
  probe : ProbeOutcome
  finalSize : ℕ
deriving DecidableEq, Repr

/-- Which external tool invocation the pipeline made. -/
inductive ToolCall
  | trim (args : TrimArgs)
  | copy
deriving DecidableEq, Repr

inductive UploadResponse
  | missingFile
  | fileTooLarge
  | invalidType
  | processingFailed (msg : String)
  | created (videoId : String) (duration : ℚ) (sizeBytes : ℕ)
deriving DecidableEq, Repr

/-- HTTP status of each upload response. -/
def uploadStatus : UploadResponse → ℕ
  | .missingFile => 400
  | .fileTooLarge => 413
  | .invalidType => 400
  | .processingFailed _ => 500
  | .created _ _ _ => 201

/-- `getPublicUrl` in local-storage mode. -/
def getPublicUrl (videoId : String) : String :=
  "http://localhost:3000/api/uploads/videos/" ++ videoId ++ ".webm"

/-- Default of `MAX_UPLOAD_MB` when the environment variable is unset. -/
def defaultMaxUploadMB : ℕ := 200

/-- Result of one upload request: response, raw-scratch directory
contents, database, and the tool invocation made (if any). -/
structure UploadOut where
  resp : UploadResponse
  raw : List String
  db : Db
  toolCall : Option ToolCall
deriving DecidableEq, Repr

/-- The drizzle upload `POST` handler.  `raw0` is the set of ids with a
raw scratch file before the request. -/
def uploadPost (maxUploadMB : ℕ) (req : UploadReq) (env : UploadEnv)
    (raw0 : List String) (db : Db) : UploadOut :=
  match req.file with
  | none => ⟨.missingFile, raw0, db, none⟩
  | some file =>
    if file.size > maxUploadMB * 1024 * 1024 then
      ⟨.fileTooLarge, raw0, db, none⟩
    else if !(strLeads "video/" file.mimeType || strTrails ".webm" file.name) then
      ⟨.invalidType, raw0, db, none⟩
    else
      let videoId := env.newId
      -- saveRawVideo(videoId, buffer)
      let raw1 := raw0 ++ [videoId]
      let startTime := req.startTime.getD 0
      let endTime := req.endTime
      -- if (endTime !== null && startTime >= 0 && endTime > startTime)
      let doTrim : Bool := match endTime with
        | some e => decide (0 ≤ startTime) && decide (startTime < e)
        | none => false
      let result :=
        if doTrim then trimVideo startTime (endTime.getD 0) env.trimOutcome
        else copyVideo env.copyOutcome
      let tc :=
        if doTrim then ToolCall.trim (trimVideoArgs startTime (endTime.getD 0))
        else ToolCall.copy
      if !result.success then
        ⟨.processingFailed (result.error.getD "Video processing failed"),
          raw1.erase videoId, db, some tc⟩
      else if !env.finalExists then
        ⟨.processingFailed "Final video file was not created",
          raw1.erase videoId, db, some tc⟩
      else
        -- duration = endTime && startTime ? (endTime - startTime) : 10
        let duration := match getVideoDuration env.probe with
          | some d => d
          | none =>
            if numTruthy endTime && startTime != 0 then endTime.getD 0 - startTime
            else 10
        let row : VideoRow :=
          { id := videoId, filename := "videos/" ++ videoId ++ ".webm",
            contentType := "video/webm", durationSeconds := duration,
            sizeBytes := env.finalSize, publicUrl := getPublicUrl videoId,
            viewCount := 0, createdAt := env.now, updatedAt := env.now }
        ⟨.created videoId duration env.finalSize, raw1.erase videoId,
          { db with videos := db.videos ++ [row] }, some tc⟩

/-- The duration the pipeline stores when probing fails:
`endTime && startTime ? (endTime - startTime) : 10` — a JS-truthiness
test, so an `endTime` of `null`/`0` or a `startTime` of `0` selects the
fixed default 10. -/
def durationFallback (req : UploadReq) : ℚ :=
  if numTruthy req.endTime && (req.startTime.getD 0 != 0) then
    req.endTime.getD 0 - req.startTime.getD 0
  else 10

/-! ## Static file GET (`uploads/[...path]/route.ts`)

Paths are segment lists; `path.resolve` normalisation (`.` dropped,
`..` popping, never above the root) is `normalizeSegs`, and the handler
compares the *rendered strings* with `startsWith`, exactly as the
source does. -/

def normalizeSegs (segs : List String) : List String :=
  segs.foldl (fun acc seg =>
    if seg = "." then acc
    else if seg = ".." then acc.dropLast
    else acc ++ [seg]) []

/-- Render an absolute path from its segments. -/
def renderPath (segs : List String) : String :=
  "/" ++ String.intercalate "/" segs

/-- Segment-level containment: the root's segments lead the path's.
This is what "the resolved path lies inside the upload root" means. -/
def segsLead : List String → List String → Bool
  | [], _ => true
  | _ :: _, [] => false
  | a :: as, b :: bs => a == b && segsLead as bs

inductive ServeResponse
  | forbidden
  | fileNotFound
  | okPartial
  | okFull
deriving DecidableEq, Repr

def serveStatus : ServeResponse → ℕ
  | .forbidden => 403
  | .fileNotFound => 404
  | .okPartial => 206
  | .okFull => 200

/-- The uploads `GET` handler: `cwd` is the process working directory,
`uploadDirSegs` the segments of `UPLOAD_DIR` (relative), `fileSys` the
set of existing files by resolved segments. -/
def uploadsGet (cwd uploadDirSegs pathSegments : List String)
    (fileSys : List (List String)) (hasRange : Bool) : ServeResponse :=
  let resolvedPath := normalizeSegs (cwd ++ uploadDirSegs ++ pathSegments)
  let resolvedUploadDir := normalizeSegs (cwd ++ uploadDirSegs)
  -- if (!resolvedPath.startsWith(resolvedUploadDir)) return 403
  if !(strLeads (renderPath resolvedUploadDir) (renderPath resolvedPath)) then
    .forbidden
  else if !(fileSys.contains resolvedPath) then
    .fileNotFound
  else if hasRange then .okPartial
  else .okFull

/-! ## Concrete fixtures used by witnesses and counterexamples -/

def vRow : VideoRow :=
  { id := "v1", filename := "videos/v1.webm", contentType := "video/webm",
    durationSeconds := 10, sizeBytes := 5, publicUrl := "u",
    viewCount := 0, createdAt := 0, updatedAt := 0 }

/-- A database holding one video and nothing else. -/
def db1v : Db := ⟨[vRow], [], []⟩

def emptyDb : Db := ⟨[], [], []⟩

def okFile : FilePart := ⟨"rec.webm", "video/webm", 100⟩

/-- One byte above the default 200 MiB limit. -/
def bigFile : FilePart := ⟨"rec.webm", "video/webm", 209715201⟩

def spawnOk : SpawnOutcome := ⟨none, 0, ""⟩

def probeOk8 : ProbeOutcome := ⟨false, 0, some 8⟩

def probeFailed : ProbeOutcome := ⟨true, 0, none⟩

def envOk : UploadEnv := ⟨"vid-1", 0, spawnOk, spawnOk, true, probeOk8, 42⟩

/-- Copy step exits 1 with stderr `"boom"`. -/
def envCopyFail : UploadEnv := ⟨"vid-1", 0, spawnOk, ⟨none, 1, "boom"⟩, true, probeOk8, 42⟩

/-- Trim step exits 1 with stderr `"trimboom"`. -/
def envTrimFail : UploadEnv := ⟨"vid-1", 0, ⟨none, 1, "trimboom"⟩, spawnOk, true, probeOk8, 42⟩

/-- ffprobe fails to spawn: no duration. -/
def envProbeFail : UploadEnv := ⟨"vid-1", 0, spawnOk, spawnOk, true, probeFailed, 42⟩

/-! ## Theorems -/

/-- Claim C4 — An upload whose file byte length exceeds the configured
maximum (`MAX_UPLOAD_MB`, default 200 MiB) is answered with 413
`file_too_large`, and nothing else happens: the database, the raw
scratch directory and the tool-invocation trace are exactly as before
(the rejection precedes persisting the raw bytes and any processing). -/
theorem upload_oversize_rejected (maxMB : ℕ) (req : UploadReq) (env : UploadEnv)
    (raw0 : List String) (db : Db) (f : FilePart)
    (hf : req.file = some f) (hsize : f.size > maxMB * 1024 * 1024) :
    uploadPost maxMB req env raw0 db = ⟨.fileTooLarge, raw0, db, none⟩ ∧
      uploadStatus (uploadPost maxMB req env raw0 db).resp = 413 := by
  have h : uploadPost maxMB req env raw0 db = ⟨.fileTooLarge, raw0, db, none⟩ := by
    unfold uploadPost
    rw [hf]
    simp [hsize]
  exact ⟨h, by rw [h]; rfl⟩

/-- Witness for C4: a 200 MiB + 1 byte upload under the default limit. -/
theorem upload_oversize_rejected_witness :
    uploadPost defaultMaxUploadMB ⟨some bigFile, none, none⟩ envOk [] emptyDb
        = ⟨.fileTooLarge, [], emptyDb, none⟩ ∧
      uploadStatus (uploadPost defaultMaxUploadMB
        ⟨some bigFile, none, none⟩ envOk [] emptyDb).resp = 413 :=
  upload_oversize_rejected defaultMaxUploadMB ⟨some bigFile, none, none⟩ envOk [] emptyDb
    bigFile rfl (by decide)

/-- Claim C9 — For an upload that reaches the processing step, the pipeline
invokes trim exactly when `endTime` is present, `startTime` (defaulting
to 0 when absent) is non-negative, and `endTime > startTime`; the trim
invocation seeks to `startTime` and extracts `endTime - startTime`
seconds.  In every other case it invokes copy, which carries no time
restriction. -/
theorem upload_tool_selection (maxMB : ℕ) (req : UploadReq) (env : UploadEnv)
    (raw0 : List String) (db : Db) (f : FilePart)
    (hf : req.file = some f)
    (hsize : ¬ f.size > maxMB * 1024 * 1024)
    (htype : (strLeads "video/" f.mimeType || strTrails ".webm" f.name) = true) :
    (uploadPost maxMB req env raw0 db).toolCall =
      some (match req.endTime with
        | some e =>
          if 0 ≤ req.startTime.getD 0 ∧ req.startTime.getD 0 < e then
            ToolCall.trim ⟨req.startTime.getD 0, e - req.startTime.getD 0⟩
          else ToolCall.copy
        | none => ToolCall.copy) := by
  unfold uploadPost
  rw [hf]
  simp only [if_neg hsize, htype, Bool.not_true, Bool.false_eq_true, if_false]
  cases hE : req.endTime with
  | none =>
    simp [apply_ite UploadOut.toolCall]
  | some e =>
    by_cases hc : 0 ≤ req.startTime.getD 0 ∧ req.startTime.getD 0 < e
    · simp [apply_ite UploadOut.toolCall, hc.1, hc.2, if_pos hc, trimVideoArgs]
    · have hb : (decide (0 ≤ req.startTime.getD 0) && decide (req.startTime.getD 0 < e)) = false := by
        rcases Decidable.not_and_iff_or_not.mp hc with h | h <;> simp [h]
      simp [apply_ite UploadOut.toolCall, hb, if_neg hc]

/-- Witness for C9: `startTime=2`, `endTime=10` selects trim with seek 2
and extraction length 8. -/
theorem upload_tool_selection_witness :
    (uploadPost 200 ⟨some okFile, some 2, some 10⟩ envOk [] emptyDb).toolCall
      = some (ToolCall.trim ⟨2, 10 - 2⟩) := by
  have h := upload_tool_selection 200 ⟨some okFile, some 2, some 10⟩ envOk [] emptyDb okFile
    rfl (by decide) (by decide)
  rw [h]
  norm_num

/-- Claim C10 — A watch-progress request whose `videoDuration` is absent or
0, or whose `sessionId` is absent/empty, or whose `watchedSeconds` is
undefined, gets 400 `missing_fields` and no database write; an `ok`
response can only arise with `videoDuration = some d`, `d ≠ 0`, and
carries exactly `min(100, watchedSeconds/videoDuration*100)` — so the
division is never evaluated with divisor 0 — while `watchedSeconds = 0`
passes validation. -/
theorem watch_missing_fields_guard :
    (∀ (db : Db) (videoId : String) (body : WatchBody) (newId : String) (now : ℤ),
      ((body.sessionId = none ∨ body.sessionId = some "") ∨ body.watchedSeconds = none
          ∨ (body.videoDuration = none ∨ body.videoDuration = some 0)) →
        watchSessionPost db videoId body newId now = (.missingFields, db)) ∧
    (∀ (db : Db) (videoId : String) (body : WatchBody) (newId : String) (now : ℤ)
        (p : ℚ) (db' : Db),
      watchSessionPost db videoId body newId now = (.ok p, db') →
        ∃ w d, body.watchedSeconds = some w ∧ body.videoDuration = some d ∧ d ≠ 0 ∧
          p = computeWatchedPercentage w d) ∧
    (∀ (db : Db) (videoId s : String) (d : ℚ) (newId : String) (now : ℤ),
      s ≠ "" → d ≠ 0 →
        (watchSessionPost db videoId ⟨some s, some 0, some d⟩ newId now).1
          ≠ .missingFields) := by
  refine ⟨?_, ?_, ?_⟩
  · intro db vid body nid now h
    have hc : (!(strTruthy body.sessionId) || body.watchedSeconds == none
        || !(numTruthy body.videoDuration)) = true := by
      rcases h with (h | h) | h | (h | h) <;> simp [h, strTruthy, numTruthy]
    unfold watchSessionPost
    rw [if_pos hc]
  · intro db vid body nid now p db' h
    unfold watchSessionPost at h
    by_cases hc : (!(strTruthy body.sessionId) || body.watchedSeconds == none
        || !(numTruthy body.videoDuration)) = true
    · rw [if_pos hc] at h
      simp at h
    · rw [if_neg hc] at h
      simp only [Bool.or_eq_true, Bool.not_eq_true', not_or] at hc
      obtain ⟨⟨hsid, hwsne⟩, hdur⟩ := hc
      obtain ⟨w, hw⟩ : ∃ w, body.watchedSeconds = some w := by
        cases hws : body.watchedSeconds with
        | none => rw [hws] at hwsne; simp at hwsne
        | some w => exact ⟨w, rfl⟩
      obtain ⟨d, hd, hdne⟩ : ∃ d, body.videoDuration = some d ∧ d ≠ 0 := by
        cases hvd : body.videoDuration with
        | none => rw [hvd] at hdur; simp [numTruthy] at hdur
        | some d =>
          refine ⟨d, rfl, ?_⟩
          rw [hvd] at hdur
          simpa [numTruthy] using hdur
      refine ⟨w, d, hw, hd, hdne, ?_⟩
      split at h
      · simp at h
      · dsimp only at h
        split at h
        · split at h
          all_goals
            (have h1 := congrArg Prod.fst h
             simp only [WatchResponse.ok.injEq] at h1
             rw [← h1, hw, hd]
             rfl)
        · have h1 := congrArg Prod.fst h
          simp only [WatchResponse.ok.injEq] at h1
          rw [← h1, hw, hd]
          rfl
  · intro db vid s d nid now hs hd
    have hc : (!(strTruthy (some s)) || (some (0:ℚ)) == none
        || !(numTruthy (some d))) = false := by
      simp [strTruthy, numTruthy, hs, hd]
    unfold watchSessionPost
    simp only [hc]
    rw [if_neg (by simp)]
    split
    · simp
    · split
      · split <;> simp
      · simp

/-- Witness for C10: `videoDuration = 0` is rejected with
`missing_fields` and no write. -/
theorem watch_missing_fields_guard_witness :
    watchSessionPost db1v "v1" ⟨some "s1", some 5, some 0⟩ "ws1" 0
      = (.missingFields, db1v) :=
  watch_missing_fields_guard.1 db1v "v1" ⟨some "s1", some 5, some 0⟩ "ws1" 0
    (Or.inr (Or.inr (Or.inr rfl)))

/-- Claim C7 (counterexample) — the claim "the computed and stored
`watchedPercentage` lies in `[0, 100]`" fails: `watchedSeconds = -5`
with `videoDuration = 10` passes validation and both the response and
the stored row carry `min(100, -5/10*100) = -50 < 0` (there is no lower
clamp). -/
theorem watch_percentage_negative_cex :
    (watchSessionPost db1v "v1" ⟨some "s1", some (-5), some 10⟩ "ws1" 0).1
        = .ok (computeWatchedPercentage (-5) 10) ∧
      ((watchSessionPost db1v "v1" ⟨some "s1", some (-5), some 10⟩ "ws1" 0).2.watchSessions.map
        (fun w => w.watchedPercentage)) = [computeWatchedPercentage (-5) 10] ∧
      computeWatchedPercentage (-5) 10 < 0 := by
  refine ⟨rfl, rfl, ?_⟩
  unfold computeWatchedPercentage
  norm_num

/-- Claim C7 (amended) — For every validated watch-progress request on an
existing video, the computed percentage is exactly
`min(100, watchedSeconds/videoDuration*100)`: it never exceeds 100, and
it is non-negative whenever `watchedSeconds ≥ 0` and `videoDuration >
0`; every stored row is either untouched or carries exactly this value.
(Only the upper bound is clamped: negative inputs pass validation and
produce a negative percentage, see the counterexample.) -/
theorem watch_percentage_formula (db : Db) (vid : String) (body : WatchBody)
    (nid : String) (now : ℤ) (s : String) (w d : ℚ)
    (hs : body.sessionId = some s) (hsne : s ≠ "")
    (hw : body.watchedSeconds = some w)
    (hd : body.videoDuration = some d) (hdne : d ≠ 0)
    (hv : (findVideo db vid).isSome) :
    (watchSessionPost db vid body nid now).1 = .ok (computeWatchedPercentage w d) ∧
    computeWatchedPercentage w d ≤ 100 ∧
    (0 ≤ w → 0 < d → 0 ≤ computeWatchedPercentage w d) ∧
    (∀ r ∈ (watchSessionPost db vid body nid now).2.watchSessions,
      r ∈ db.watchSessions ∨ r.watchedPercentage = computeWatchedPercentage w d) := by
  have hc : (!(strTruthy body.sessionId) || body.watchedSeconds == none
      || !(numTruthy body.videoDuration)) = false := by
    simp [strTruthy, numTruthy, hs, hsne, hw, hd, hdne]
  obtain ⟨v, hfv⟩ := Option.isSome_iff_exists.mp hv
  have hmain :
      (watchSessionPost db vid body nid now).1 = .ok (computeWatchedPercentage w d) ∧
      (∀ r ∈ (watchSessionPost db vid body nid now).2.watchSessions,
        r ∈ db.watchSessions ∨ r.watchedPercentage = computeWatchedPercentage w d) := by
    unfold watchSessionPost
    rw [hc]
    rw [if_neg (by simp)]
    rw [hfv]
    dsimp only
    rw [hw, hd]
    dsimp only [Option.getD_some]
    split
    · rename_i sess hsess
      split
      · constructor
        · rfl
        · intro r hr
          simp only [List.mem_map] at hr
          obtain ⟨a, ha, hra⟩ := hr
          by_cases hid : (a.id == sess.id) = true
          · rw [hid] at hra
            simp only [if_true] at hra
            right
            rw [← hra]
          · rw [Bool.not_eq_true] at hid
            rw [hid] at hra
            simp only [Bool.false_eq_true, if_false] at hra
            left
            rw [← hra]
            exact ha
      · exact ⟨rfl, fun r hr => Or.inl hr⟩
    · constructor
      · rfl
      · intro r hr
        simp only [List.mem_append, List.mem_singleton] at hr
        rcases hr with hr | hr
        · exact Or.inl hr
        · right
          rw [hr]
  refine ⟨hmain.1, ?_, ?_, hmain.2⟩
  · exact min_le_left _ _
  · intro hw0 hd0
    unfold computeWatchedPercentage
    have : (0:ℚ) ≤ w / d * 100 := by positivity
    exact le_min (by norm_num) this

/-- Witness for C7's amended theorem: `watchedSeconds = 5`,
`videoDuration = 10` on an existing video. -/
theorem watch_percentage_formula_witness :
    (watchSessionPost db1v "v1" ⟨some "s1", some 5, some 10⟩ "ws1" 0).1
        = .ok (computeWatchedPercentage 5 10) ∧
      computeWatchedPercentage 5 10 ≤ 100 ∧
      (0 ≤ (5:ℚ) → 0 < (10:ℚ) → 0 ≤ computeWatchedPercentage 5 10) ∧
      (∀ r ∈ (watchSessionPost db1v "v1" ⟨some "s1", some 5, some 10⟩ "ws1" 0).2.watchSessions,
        r ∈ db1v.watchSessions ∨ r.watchedPercentage = computeWatchedPercentage 5 10) :=
  watch_percentage_formula db1v "v1" ⟨some "s1", some 5, some 10⟩ "ws1" 0 "s1" 5 10
    rfl (by decide) rfl rfl (by norm_num) (by decide)

/-- Claim C5 (bug exhibit) — the containment check compares rendered path
strings with `startsWith`, so the request `["..", "uploads2",
"secret.webm"]` under root `uploads` resolves to
`/app/uploads2/secret.webm` — *outside* the upload root at segment
level — yet `"/app/uploads2/secret.webm".startsWith("/app/uploads")`
holds and the handler serves the file with 200 instead of rejecting it
with 403. -/
theorem uploads_traversal_bug :
    uploadsGet ["app"] ["uploads"] ["..", "uploads2", "secret.webm"]
        [["app", "uploads2", "secret.webm"]] false = .okFull ∧
      serveStatus (uploadsGet ["app"] ["uploads"] ["..", "uploads2", "secret.webm"]
        [["app", "uploads2", "secret.webm"]] false) = 200 ∧
      segsLead (normalizeSegs (["app"] ++ ["uploads"]))
        (normalizeSegs (["app"] ++ ["uploads"] ++ ["..", "uploads2", "secret.webm"]))
        = false := by
  decide

/-- Claim C6 (counterexample) — the claim "when probing fails the duration
falls back to `endTime - startTime` when both were given" fails for an
explicitly given `startTime = 0`: with `startTime=0`, `endTime=8` and a
failed probe the stored/returned duration is the fixed default 10, not
`8 - 0 = 8`, because the fallback tests JS truthiness (`endTime &&
startTime`) and `0` is falsy. -/
theorem upload_duration_fallback_cex :
    (uploadPost 200 ⟨some okFile, some 0, some 8⟩ envProbeFail [] emptyDb).resp
        = .created "vid-1" 10 42 ∧
      (10:ℚ) ≠ 8 - 0 := by
  refine ⟨rfl, by norm_num⟩

/-- Claim C6 (amended) — When the duration probe returns no parseable
number and the tool/verify steps succeed, the request still succeeds
(201), and the stored and returned duration is `endTime - startTime`
only when `endTime` and the effective `startTime` are both given and
non-zero (JS truthiness); in every other case — including an explicitly
given `startTime = 0` — it is the fixed default 10.  A probe failure
alone never fails the request. -/
theorem upload_duration_fallback (maxMB : ℕ) (req : UploadReq) (env : UploadEnv)
    (raw0 : List String) (db : Db) (f : FilePart)
    (hf : req.file = some f)
    (hsize : ¬ f.size > maxMB * 1024 * 1024)
    (htype : (strLeads "video/" f.mimeType || strTrails ".webm" f.name) = true)
    (htrim : (trimVideo (req.startTime.getD 0) (req.endTime.getD 0)
      env.trimOutcome).success = true)
    (hcopy : (copyVideo env.copyOutcome).success = true)
    (hfin : env.finalExists = true)
    (hprobe : getVideoDuration env.probe = none) :
    (uploadPost maxMB req env raw0 db).resp
        = .created env.newId (durationFallback req) env.finalSize ∧
      uploadStatus (uploadPost maxMB req env raw0 db).resp = 201 ∧
      ((uploadPost maxMB req env raw0 db).db.videos.map (fun v => v.durationSeconds))
        = db.videos.map (fun v => v.durationSeconds) ++ [durationFallback req] := by
  have hout : (uploadPost maxMB req env raw0 db).resp
      = .created env.newId (durationFallback req) env.finalSize ∧
      ((uploadPost maxMB req env raw0 db).db.videos.map (fun v => v.durationSeconds))
        = db.videos.map (fun v => v.durationSeconds) ++ [durationFallback req] := by
    unfold uploadPost
    rw [hf]
    simp only [if_neg hsize, htype, Bool.not_true, Bool.false_eq_true, if_false]
    by_cases hdo : (match req.endTime with
        | some e => decide (0 ≤ req.startTime.getD 0) && decide (req.startTime.getD 0 < e)
        | none => false) = true
    · simp [hdo, htrim, hfin, hprobe, durationFallback]
    · rw [Bool.not_eq_true] at hdo
      simp [hdo, hcopy, hfin, hprobe, durationFallback]
  exact ⟨hout.1, by rw [hout.1]; rfl, hout.2⟩

/-- Witness for C6's amended theorem: `startTime=2`, `endTime=10`, probe
fails, stored duration is `10 - 2 = 8`. -/
theorem upload_duration_fallback_witness :
    (uploadPost 200 ⟨some okFile, some 2, some 10⟩ envProbeFail [] emptyDb).resp
        = .created "vid-1" (durationFallback ⟨some okFile, some 2, some 10⟩) 42 ∧
      uploadStatus (uploadPost 200 ⟨some okFile, some 2, some 10⟩ envProbeFail []
        emptyDb).resp = 201 ∧
      ((uploadPost 200 ⟨some okFile, some 2, some 10⟩ envProbeFail [] emptyDb).db.videos.map
          (fun v => v.durationSeconds))
        = [durationFallback ⟨some okFile, some 2, some 10⟩] :=
  upload_duration_fallback 200 ⟨some okFile, some 2, some 10⟩ envProbeFail [] emptyDb okFile
    rfl (by decide) (by decide) rfl rfl rfl rfl

/-- `charsHavePre` is reflexive. -/
theorem charsHavePre_self : ∀ l : List Char, charsHavePre l l = true
  | [] => rfl
  | a :: as => by simp [charsHavePre, charsHavePre_self as]

/-- A list is contained in anything that ends with it. -/
theorem charsContain_append (l n : List Char) : charsContain n (l ++ n) = true := by
  induction l with
  | nil =>
    cases n with
    | nil => rfl
    | cons a t => simp [charsContain, charsHavePre_self]
  | cons a l ih => simp [charsContain, ih]

/-- A string contains any of its suffixes — in particular a diagnostic
message of the form `p ++ tail` contains `tail`. -/
theorem containsSub_append_left (p s : String) : containsSub s (p ++ s) = true := by
  unfold containsSub
  rw [String.data_append]
  exact charsContain_append p.data s.data

/-- Appending a fresh element and erasing it is the identity. -/
theorem erase_append_self (l : List String) (a : String) (h : a ∉ l) :
    (l ++ [a]).erase a = l := by
  rw [List.erase_append_right _ h, List.erase_cons_head]
  simp

/-- Claim C3 (amended) — When the external tool invocation fails with a
non-zero exit code, the pipeline removes the raw scratch file, creates
no Video row, and returns 500 `processing_failed`; the diagnostic
message includes the stderr tail (last 500 characters) for *trim*
failures, while *copy* failures report only the exit code (the captured
stderr is dropped, see the counterexample). -/
theorem upload_tool_failure (maxMB : ℕ) (req : UploadReq) (env : UploadEnv)
    (raw0 : List String) (db : Db) (f : FilePart)
    (hf : req.file = some f)
    (hsize : ¬ f.size > maxMB * 1024 * 1024)
    (htype : (strLeads "video/" f.mimeType || strTrails ".webm" f.name) = true)
    (hnew : env.newId ∉ raw0) :
    ((match req.endTime with
        | some e => decide (0 ≤ req.startTime.getD 0) && decide (req.startTime.getD 0 < e)
        | none => false) = true →
      env.trimOutcome.spawnErrMsg = none → env.trimOutcome.exitCode ≠ 0 →
      (uploadPost maxMB req env raw0 db).resp
          = .processingFailed ("FFmpeg exited with code " ++ toString env.trimOutcome.exitCode
              ++ ": " ++ strTail 500 env.trimOutcome.stderr) ∧
        containsSub (strTail 500 env.trimOutcome.stderr)
          ("FFmpeg exited with code " ++ toString env.trimOutcome.exitCode
              ++ ": " ++ strTail 500 env.trimOutcome.stderr) = true ∧
        (uploadPost maxMB req env raw0 db).db = db ∧
        (uploadPost maxMB req env raw0 db).raw = raw0 ∧
        uploadStatus (uploadPost maxMB req env raw0 db).resp = 500) ∧
    ((match req.endTime with
        | some e => decide (0 ≤ req.startTime.getD 0) && decide (req.startTime.getD 0 < e)
        | none => false) = false →
      env.copyOutcome.spawnErrMsg = none → env.copyOutcome.exitCode ≠ 0 →
      (uploadPost maxMB req env raw0 db).resp
          = .processingFailed ("FFmpeg copy failed with code "
              ++ toString env.copyOutcome.exitCode) ∧
        (uploadPost maxMB req env raw0 db).db = db ∧
        (uploadPost maxMB req env raw0 db).raw = raw0 ∧
        uploadStatus (uploadPost maxMB req env raw0 db).resp = 500) := by
  constructor
  · intro hdo hsp hexit
    have hres : uploadPost maxMB req env raw0 db
        = ⟨.processingFailed ("FFmpeg exited with code " ++ toString env.trimOutcome.exitCode
            ++ ": " ++ strTail 500 env.trimOutcome.stderr),
          raw0, db,
          some (ToolCall.trim (trimVideoArgs (req.startTime.getD 0) (req.endTime.getD 0)))⟩ := by
      unfold uploadPost
      rw [hf]
      simp only [if_neg hsize, htype, Bool.not_true, Bool.false_eq_true, if_false]
      simp [hdo, trimVideo, hsp, hexit, erase_append_self raw0 env.newId hnew]
    refine ⟨by rw [hres], ?_, by rw [hres], by rw [hres], by rw [hres]; rfl⟩
    exact containsSub_append_left _ _
  · intro hdo hsp hexit
    have hres : uploadPost maxMB req env raw0 db
        = ⟨.processingFailed ("FFmpeg copy failed with code "
            ++ toString env.copyOutcome.exitCode),
          raw0, db, some ToolCall.copy⟩ := by
      unfold uploadPost
      rw [hf]
      simp only [if_neg hsize, htype, Bool.not_true, Bool.false_eq_true, if_false]
      simp [hdo, copyVideo, hsp, hexit, erase_append_self raw0 env.newId hnew]
    exact ⟨by rw [hres], by rw [hres], by rw [hres], by rw [hres]; rfl⟩

/-- Witness for C3's amended theorem: a trim that exits 1 with stderr
`"trimboom"`. -/
theorem upload_tool_failure_witness :
    (uploadPost 200 ⟨some okFile, some 2, some 10⟩ envTrimFail [] emptyDb).resp
        = .processingFailed ("FFmpeg exited with code " ++ toString (1:ℤ)
            ++ ": " ++ strTail 500 "trimboom") ∧
      containsSub (strTail 500 "trimboom") ("FFmpeg exited with code " ++ toString (1:ℤ)
          ++ ": " ++ strTail 500 "trimboom") = true ∧
      (uploadPost 200 ⟨some okFile, some 2, some 10⟩ envTrimFail [] emptyDb).db = emptyDb ∧
      (uploadPost 200 ⟨some okFile, some 2, some 10⟩ envTrimFail [] emptyDb).raw = [] ∧
      uploadStatus (uploadPost 200 ⟨some okFile, some 2, some 10⟩ envTrimFail []
        emptyDb).resp = 500 :=
  (upload_tool_failure 200 ⟨some okFile, some 2, some 10⟩ envTrimFail [] emptyDb okFile
    rfl (by decide) (by decide) (by decide)).1 (by decide) rfl (by decide)

/-- Claim C3 (counterexample) — the claim "the `processing_failed`
diagnostic includes the tool's stderr tail" fails on the copy path: a
copy that exits 1 with stderr `"boom"` yields the message
`"FFmpeg copy failed with code 1"`, which does not contain the stderr
tail (the raw file is still cleaned up and no Video row is written). -/
theorem upload_copyfail_no_stderr_cex :
    (uploadPost 200 ⟨some okFile, none, none⟩ envCopyFail [] emptyDb).resp
        = .processingFailed ("FFmpeg copy failed with code " ++ toString (1:ℤ)) ∧
      envCopyFail.copyOutcome.stderr = "boom" ∧
      containsSub (strTail 500 "boom")
        ("FFmpeg copy failed with code " ++ toString (1:ℤ)) = false ∧
      (uploadPost 200 ⟨some okFile, none, none⟩ envCopyFail [] emptyDb).db = emptyDb ∧
      (uploadPost 200 ⟨some okFile, none, none⟩ envCopyFail [] emptyDb).raw = [] := by
  decide

/-- The increment map preserves the id predicate used by `findVideo`. -/
theorem bump_pred_comp (vid : String) :
    ((fun w : VideoRow => w.id == vid) ∘ (fun w : VideoRow =>
        if w.id == vid then { w with viewCount := w.viewCount + 1 } else w))
      = fun w : VideoRow => w.id == vid := by
  funext a
  by_cases hid : (a.id == vid) = true
  · simp [Function.comp, hid]
  · rw [Bool.not_eq_true] at hid
    simp [Function.comp, hid]

/-- `findVideo` after the increment returns the incremented row. -/
theorem findVideo_bump (db : Db) (vid : String) :
    findVideo (bumpViewCount db vid) vid
      = (findVideo db vid).map (fun w =>
          if w.id == vid then { w with viewCount := w.viewCount + 1 } else w) := by
  unfold findVideo bumpViewCount
  dsimp only
  rw [List.find?_map, bump_pred_comp]

/-- Incrementing bumps the reported view count of a present video by
one. -/
theorem viewCountOf_bump (db : Db) (vid : String) (v : VideoRow)
    (hv : findVideo db vid = some v) :
    viewCountOf (bumpViewCount db vid) vid = v.viewCount + 1 := by
  have hpv :=
    List.find?_some (show List.find? (fun w : VideoRow => w.id == vid) db.videos = some v from hv)
  have hid : v.id = vid := by simpa using hpv
  unfold viewCountOf
  rw [findVideo_bump, hv]
  simp [hid]

/-- Claim C1 (amended) — In the prisma route, where the View insert and
the count increment run in one `$transaction`, the two writes are
atomic: whatever the request and whether the transaction fails, either
the view-row set and the count are both unchanged or the request added
exactly one View row and incremented that video's count by exactly one
— so the count never diverges from the rows this code path inserted.
(The drizzle route issues the two writes sequentially; see the
counterexample.) -/
theorem views_prisma_atomic (db : Db) (vid : String) (sid : Option String)
    (ua : Option String) (now : ℤ) (nid : String) (txF : Bool) :
    ((viewsPostPrisma db vid sid ua now nid txF).2.views.length = db.views.length ∧
      viewCountOf (viewsPostPrisma db vid sid ua now nid txF).2 vid
        = viewCountOf db vid) ∨
    ((viewsPostPrisma db vid sid ua now nid txF).2.views.length = db.views.length + 1 ∧
      viewCountOf (viewsPostPrisma db vid sid ua now nid txF).2 vid
        = viewCountOf db vid + 1) := by
  unfold viewsPostPrisma
  by_cases hsid : (!(strTruthy sid)) = true
  · rw [if_pos hsid]
    exact Or.inl ⟨rfl, rfl⟩
  · rw [if_neg hsid]
    cases hfv : findVideo db vid with
    | none =>
      exact Or.inl ⟨rfl, rfl⟩
    | some v =>
      dsimp only
      cases hrv : findRecentView db vid (sid.getD "") now with
      | some w =>
        exact Or.inl ⟨rfl, rfl⟩
      | none =>
        dsimp only
        by_cases htx : txF = true
        · rw [if_pos htx]
          exact Or.inl ⟨rfl, rfl⟩
        · rw [if_neg htx]
          right
          constructor
          · simp [bumpViewCount]
          · have hv1 : findVideo { db with views := db.views ++
                [{ id := nid, videoId := vid, sessionId := sid.getD "",
                   userAgent := ua, createdAt := now }] } vid = some v := hfv
            rw [viewCountOf_bump _ _ _ hv1]
            unfold viewCountOf
            rw [hfv]
            rfl

/-- Claim C1 (counterexample) — in the drizzle route the insert and the
increment are two separate statements: if the insert commits and the
increment then fails, the request returns 500 with the View row kept
and the count unchanged — the two writes did not happen atomically and
`viewCount` (0) differs from the number of rows inserted by this code
path (1). -/
theorem views_insert_update_divergence_cex :
    (viewsPostDrizzle db1v "v1" (some "s1") none 1000 "view-1" ⟨false, true⟩).1
        = .serverError ∧
      (viewsPostDrizzle db1v "v1" (some "s1") none 1000 "view-1" ⟨false, true⟩).2.views.length
        = db1v.views.length + 1 ∧
      viewCountOf (viewsPostDrizzle db1v "v1" (some "s1") none 1000 "view-1"
        ⟨false, true⟩).2 "v1" = viewCountOf db1v "v1" := by
  decide

/-- Claim C2 — Two view-tracking POSTs with the same `(videoId,
sessionId)`, the second arriving while the first's View row is within
the rolling 24-hour window: the first inserts exactly one View row and
increments the view count by one; the second answers `deduplicated` and
changes nothing. -/
theorem views_dedup_window (db : Db) (vid sid : String) (ua1 ua2 : Option String)
    (t1 t2 : ℤ) (id1 id2 : String)
    (hsid : sid ≠ "")
    (v : VideoRow) (hvid : findVideo db vid = some v)
    (hfresh : findRecentView db vid sid t1 = none)
    (ht : t1 ≤ t2) (hwin : t2 - DEDUP_WINDOW_MS ≤ t1) :
    (viewsPostDrizzle db vid (some sid) ua1 t1 id1 noFaults).1 = .okNew ∧
    (viewsPostDrizzle db vid (some sid) ua1 t1 id1 noFaults).2.views
      = db.views ++ [⟨id1, vid, sid, ua1, t1⟩] ∧
    viewCountOf (viewsPostDrizzle db vid (some sid) ua1 t1 id1 noFaults).2 vid
      = viewCountOf db vid + 1 ∧
    (viewsPostDrizzle (viewsPostDrizzle db vid (some sid) ua1 t1 id1 noFaults).2
        vid (some sid) ua2 t2 id2 noFaults).1 = .okDeduplicated ∧
    (viewsPostDrizzle (viewsPostDrizzle db vid (some sid) ua1 t1 id1 noFaults).2
        vid (some sid) ua2 t2 id2 noFaults).2
      = (viewsPostDrizzle db vid (some sid) ua1 t1 id1 noFaults).2 := by
  have hstr : (!(strTruthy (some sid))) = false := by simp [strTruthy, hsid]
  have hfresh1 : findRecentView db vid ((some sid).getD "") t1 = none := hfresh
  set dbA := bumpViewCount { db with views := db.views ++
      [⟨id1, vid, ((some sid).getD ""), ua1, t1⟩] } vid with hdbA
  have h1 : viewsPostDrizzle db vid (some sid) ua1 t1 id1 noFaults = (.okNew, dbA) := by
    unfold viewsPostDrizzle
    rw [hstr]
    rw [if_neg (by simp)]
    rw [hvid]
    dsimp only
    rw [hfresh1]
    rw [hdbA]
    rfl
  have hv1 : findVideo { db with views := db.views ++
      [⟨id1, vid, ((some sid).getD ""), ua1, t1⟩] } vid = some v := hvid
  have hvid2 : findVideo dbA vid
      = some (if v.id == vid then { v with viewCount := v.viewCount + 1 } else v) := by
    rw [hdbA, findVideo_bump, hv1]
    rfl
  have hviewsA : dbA.views = db.views ++ [⟨id1, vid, sid, ua1, t1⟩] := by
    rw [hdbA]
    rfl
  have hrv2 : findRecentView dbA vid ((some sid).getD "") t2
      = some ⟨id1, vid, sid, ua1, t1⟩ := by
    unfold findRecentView
    rw [show ((some sid).getD "") = sid from rfl, hviewsA, List.find?_append]
    have hnone2 : db.views.find? (fun w => w.videoId == vid && w.sessionId == sid
        && decide (t2 - DEDUP_WINDOW_MS ≤ w.createdAt)) = none := by
      rw [List.find?_eq_none]
      intro x hx hx2
      apply List.find?_eq_none.mp hfresh x hx
      simp only [Bool.and_eq_true, decide_eq_true_eq] at hx2 ⊢
      exact ⟨⟨hx2.1.1, hx2.1.2⟩,
        le_trans (show t1 - DEDUP_WINDOW_MS ≤ t2 - DEDUP_WINDOW_MS by omega) hx2.2⟩
    rw [hnone2]
    have hcond : ((⟨id1, vid, sid, ua1, t1⟩ : ViewRow).videoId == vid
        && ((⟨id1, vid, sid, ua1, t1⟩ : ViewRow).sessionId == sid
        && decide (t2 - DEDUP_WINDOW_MS ≤ (⟨id1, vid, sid, ua1, t1⟩ : ViewRow).createdAt)))
        = true := by
      dsimp only
      simp only [beq_self_eq_true, Bool.true_and, Bool.and_true, Bool.and_self,
        decide_eq_true_eq]
      omega
    simp only [List.find?_singleton]
    rw [if_pos (by simpa [Bool.and_assoc] using hcond)]
    rfl
  have h2 : viewsPostDrizzle dbA vid (some sid) ua2 t2 id2 noFaults
      = (.okDeduplicated, dbA) := by
    unfold viewsPostDrizzle
    rw [hstr]
    rw [if_neg (by simp)]
    rw [hvid2]
    dsimp only
    rw [hrv2]
  refine ⟨by rw [h1], ?_, ?_, ?_, ?_⟩
  · rw [h1]
    exact hviewsA
  · rw [h1]
    show viewCountOf dbA vid = viewCountOf db vid + 1
    rw [hdbA, viewCountOf_bump _ _ _ hv1]
    unfold viewCountOf
    rw [hvid]
    rfl
  · rw [h1]
    show (viewsPostDrizzle dbA vid (some sid) ua2 t2 id2 noFaults).1 = _
    rw [h2]
  · rw [h1]
    show (viewsPostDrizzle dbA vid (some sid) ua2 t2 id2 noFaults).2 = dbA
    rw [h2]

/-- Witness for C2: two POSTs for `("v1","s1")` at t=1000 and t=2000. -/
theorem views_dedup_window_witness :
    (viewsPostDrizzle db1v "v1" (some "s1") none 1000 "view-1" noFaults).1 = .okNew ∧
    (viewsPostDrizzle db1v "v1" (some "s1") none 1000 "view-1" noFaults).2.views
      = db1v.views ++ [⟨"view-1", "v1", "s1", none, 1000⟩] ∧
    viewCountOf (viewsPostDrizzle db1v "v1" (some "s1") none 1000 "view-1" noFaults).2 "v1"
      = viewCountOf db1v "v1" + 1 ∧
    (viewsPostDrizzle (viewsPostDrizzle db1v "v1" (some "s1") none 1000 "view-1" noFaults).2
        "v1" (some "s1") none 2000 "view-2" noFaults).1 = .okDeduplicated ∧
    (viewsPostDrizzle (viewsPostDrizzle db1v "v1" (some "s1") none 1000 "view-1" noFaults).2
        "v1" (some "s1") none 2000 "view-2" noFaults).2
      = (viewsPostDrizzle db1v "v1" (some "s1") none 1000 "view-1" noFaults).2 :=
  views_dedup_window db1v "v1" "s1" none none 1000 2000 "view-1" "view-2"
    (by decide) vRow rfl rfl (by decide) (by decide)

/-- `optLe` is reflexive. -/
theorem optLe_refl : ∀ x : Option ℚ, optLe x x
  | none => trivial
  | some a => le_refl a

/-- `optLe` is transitive. -/
theorem optLe_trans (a b c : Option ℚ) (h1 : optLe a b) (h2 : optLe b c) : optLe a c := by
  cases a with
  | none => trivial
  | some x =>
    cases b with
    | none => exact h1.elim
    | some y =>
      cases c with
      | none => exact h2.elim
      | some z => exact le_trans h1 h2

/-- The update map of the watch-session handler preserves the pair
predicate used by `storedMax`. -/
theorem upd_pred_comp (vid s : String) (sess : WatchSessionRow) (ws pct : ℚ) :
    ((fun x : WatchSessionRow => x.videoId == vid && x.sessionId == s) ∘
        (fun x : WatchSessionRow =>
          if x.id == sess.id then
            { x with maxWatchedSeconds := ws, watchedPercentage := pct }
          else x))
      = fun x : WatchSessionRow => x.videoId == vid && x.sessionId == s := by
  funext a
  by_cases hid : (a.id == sess.id) = true
  · simp [Function.comp, hid]
  · rw [Bool.not_eq_true] at hid
    simp [Function.comp, hid]

/-- After the handler's conditional update, the stored maximum of the
pair whose first matching row was updated is the new value. -/
theorem storedMax_update (db : Db) (vid s : String) (sess : WatchSessionRow) (ws pct : ℚ)
    (hfs : db.watchSessions.find? (fun x => x.videoId == vid && x.sessionId == s)
      = some sess) :
    storedMax { db with watchSessions := db.watchSessions.map (fun x =>
        if x.id == sess.id then
          { x with maxWatchedSeconds := ws, watchedPercentage := pct }
        else x) } vid s = some ws := by
  unfold storedMax
  dsimp only
  rw [List.find?_map, upd_pred_comp, hfs]
  simp

/-- One watch-progress report never decreases the stored maximum of its
`(videoId, sessionId)` pair. -/
theorem watch_step_mono (db : Db) (vid s : String) (body : WatchBody)
    (nid : String) (now : ℤ) (hb : body.sessionId = some s) :
    optLe (storedMax db vid s) (storedMax (watchSessionPost db vid body nid now).2 vid s) := by
  unfold watchSessionPost
  by_cases hc : (!(strTruthy body.sessionId) || body.watchedSeconds == none
      || !(numTruthy body.videoDuration)) = true
  · rw [if_pos hc]
    exact optLe_refl _
  · rw [if_neg hc]
    cases hfv : findVideo db vid with
    | none => exact optLe_refl _
    | some v =>
      dsimp only
      rw [hb]
      simp only [Option.getD_some]
      cases hfs : db.watchSessions.find?
          (fun x => x.videoId == vid && x.sessionId == s) with
      | some sess =>
        dsimp only
        have hold : storedMax db vid s = some sess.maxWatchedSeconds := by
          unfold storedMax
          rw [hfs]
          rfl
        by_cases hgt : (body.watchedSeconds.getD 0) > sess.maxWatchedSeconds
        · rw [if_pos hgt]
          dsimp only
          rw [hold, storedMax_update db vid s sess (body.watchedSeconds.getD 0)
            (computeWatchedPercentage (body.watchedSeconds.getD 0)
              (body.videoDuration.getD 0)) hfs]
          exact le_of_lt hgt
        · rw [if_neg hgt]
          exact optLe_refl _
      | none =>
        dsimp only
        have hold : storedMax db vid s = none := by
          unfold storedMax
          rw [hfs]
          rfl
        rw [hold]
        trivial

/-- Across any sequence of reports carrying this session id the stored
maximum never decreases. -/
theorem processReports_mono (db : Db) (vid s : String) (reports : List WatchReport)
    (hr : ∀ r ∈ reports, r.body.sessionId = some s) :
    optLe (storedMax db vid s) (storedMax (processReports db vid reports) vid s) := by
  induction reports generalizing db with
  | nil => exact optLe_refl _
  | cons r rs ih =>
    exact optLe_trans _ _ _
      (watch_step_mono db vid s r.body r.newId r.now (hr r (by simp)))
      (ih _ (fun x hx => hr x (by simp [hx])))

/-- Claim C8 — A validated progress report for an existing video: if no
WatchSession exists for the `(videoId, sessionId)` pair one is
inserted; if one exists, the stored maximum becomes
`max(stored, watchedSeconds)` — i.e. it is updated only when the new
value strictly exceeds it, and when it does not, the database is
entirely unchanged; across any sequence of reports for the pair the
stored maximum never decreases. -/
theorem watch_session_upsert_monotone (db : Db) (vid : String) (body : WatchBody)
    (nid : String) (now : ℤ) (s : String) (w d : ℚ)
    (hs : body.sessionId = some s) (hsne : s ≠ "")
    (hw : body.watchedSeconds = some w) (hd : body.videoDuration = some d) (hdne : d ≠ 0)
    (hv : (findVideo db vid).isSome) :
    (db.watchSessions.find? (fun x => x.videoId == vid && x.sessionId == s) = none →
      (watchSessionPost db vid body nid now).2.watchSessions
        = db.watchSessions ++ [⟨nid, vid, s, w, d, computeWatchedPercentage w d, now⟩]) ∧
    (∀ sess, db.watchSessions.find? (fun x => x.videoId == vid && x.sessionId == s)
        = some sess →
      storedMax (watchSessionPost db vid body nid now).2 vid s
          = some (max sess.maxWatchedSeconds w) ∧
      (¬ w > sess.maxWatchedSeconds → (watchSessionPost db vid body nid now).2 = db)) ∧
    (∀ reports : List WatchReport, (∀ r ∈ reports, r.body.sessionId = some s) →
      optLe (storedMax db vid s) (storedMax (processReports db vid reports) vid s)) := by
  have hc : (!(strTruthy body.sessionId) || body.watchedSeconds == none
      || !(numTruthy body.videoDuration)) = false := by
    simp [strTruthy, numTruthy, hs, hsne, hw, hd, hdne]
  obtain ⟨v, hfv⟩ := Option.isSome_iff_exists.mp hv
  have hun : watchSessionPost db vid body nid now
      = (match db.watchSessions.find? (fun x => x.videoId == vid && x.sessionId == s) with
         | some existingSession =>
           if w > existingSession.maxWatchedSeconds then
             (.ok (computeWatchedPercentage w d),
               { db with watchSessions := db.watchSessions.map (fun x =>
                   if x.id == existingSession.id then
                     { x with maxWatchedSeconds := w,
                              watchedPercentage := computeWatchedPercentage w d }
                   else x) })
           else (.ok (computeWatchedPercentage w d), db)
         | none =>
           (.ok (computeWatchedPercentage w d),
             { db with watchSessions := db.watchSessions
                 ++ [⟨nid, vid, s, w, d, computeWatchedPercentage w d, now⟩] })) := by
    unfold watchSessionPost
    rw [hc]
    rw [if_neg (by simp)]
    rw [hfv]
    dsimp only
    rw [hs, hw, hd]
    simp only [Option.getD_some]
  refine ⟨?_, ?_, ?_⟩
  · intro hnone
    rw [hun, hnone]
  · intro sess hfs
    rw [hun, hfs]
    dsimp only
    constructor
    · by_cases hgt : w > sess.maxWatchedSeconds
      · rw [if_pos hgt]
        dsimp only
        rw [storedMax_update db vid s sess w (computeWatchedPercentage w d) hfs]
        rw [max_eq_right (le_of_lt hgt)]
      · rw [if_neg hgt]
        dsimp only
        have hold : storedMax db vid s = some sess.maxWatchedSeconds := by
          unfold storedMax
          rw [hfs]
          rfl
        rw [hold, max_eq_left (not_lt.mp hgt)]
    · intro hngt
      rw [if_neg hngt]
  · intro reports hr
    exact processReports_mono db vid s reports hr

/-- Witness for C8: a first report of 5 seconds inserts a session, and
reports of 5, then 12, then 8 leave a stored maximum of 12. -/
theorem watch_session_upsert_monotone_witness :
    ((db1v.watchSessions.find? (fun x => x.videoId == "v1" && x.sessionId == "s1") = none →
      (watchSessionPost db1v "v1" ⟨some "s1", some 5, some 10⟩ "ws1" 0).2.watchSessions
        = db1v.watchSessions ++ [⟨"ws1", "v1", "s1", 5, 10, computeWatchedPercentage 5 10, 0⟩]) ∧
    (∀ sess, db1v.watchSessions.find? (fun x => x.videoId == "v1" && x.sessionId == "s1")
        = some sess →
      storedMax (watchSessionPost db1v "v1" ⟨some "s1", some 5, some 10⟩ "ws1" 0).2 "v1" "s1"
          = some (max sess.maxWatchedSeconds 5) ∧
      (¬ (5:ℚ) > sess.maxWatchedSeconds →
        (watchSessionPost db1v "v1" ⟨some "s1", some 5, some 10⟩ "ws1" 0).2 = db1v)) ∧
    (∀ reports : List WatchReport, (∀ r ∈ reports, r.body.sessionId = some "s1") →
      optLe (storedMax db1v "v1" "s1")
        (storedMax (processReports db1v "v1" reports) "v1" "s1"))) ∧
    storedMax (processReports db1v "v1"
        [⟨⟨some "s1", some 5, some 10⟩, "ws1", 0⟩,
         ⟨⟨some "s1", some 12, some 10⟩, "ws2", 1⟩,
         ⟨⟨some "s1", some 8, some 10⟩, "ws3", 2⟩]) "v1" "s1" = some 12 :=
  ⟨watch_session_upsert_monotone db1v "v1" ⟨some "s1", some 5, some 10⟩ "ws1" 0 "s1" 5 10
      rfl (by decide) rfl rfl (by norm_num) (by decide),
    by decide⟩
